import Mathlib

/-!
Verification of the noamlang pipeline (lexer, parser, type checker,
interpreter), shallowly embedded from the Rust sources in `src/`.

Conventions of the embedding:
* Rust strings are Lean `String`s; the lexer scans a `List Char`.
* `i64` is modelled as `Int`; the two places the source parses decimal
  text into an `i64` (`read_number`, `str::parse::<i64>`) carry explicit
  range checks against `2^63`.
* Character classes (`is_whitespace`, `is_alphabetic`, ...) use Lean's
  `Char` predicates; the programs in all statements below are ASCII,
  where the two agree.
* Recursive procedures take an explicit fuel argument which every
  recursive call decrements; claims about one evaluation step are stated
  at fuel `n + 1` with sub-computations at fuel `n`.
* Mutable state (`self.environment`, stdout) is threaded explicitly:
  interpreter computations return `(result, environment, output)`, where
  the environment and the output lines are those left behind even when
  the result is an error, mirroring early returns by `?` in Rust.
-/

/-- Tokens, from `lexer.rs` (`enum Token`). -/
inductive Token where
  | identifier (s : String)
  | stringLiteral (s : String)
  | integerLiteral (i : Int)
  | typeString
  | typeInteger
  | typeUnknown
  | typeTrue
  | typeFalse
  | leftBracket
  | rightBracket
  | leftBrace
  | rightBrace
  | leftParen
  | rightParen
  | equals
  | notEquals
  | colon
  | comma
  | If
  | Func
  | Comment (s : String)
  | EOF
deriving DecidableEq, Repr

/-- Identifier characters: `c.is_alphanumeric() || c == '_'` (`read_identifier`). -/
def isIdentChar (c : Char) : Bool :=
  c.isAlphanum || c = '_'

/-- `i64::MAX` as a natural number. -/
def i64MaxNat : Nat := 2 ^ 63 - 1

/-- Decimal value of a digit run. -/
def natOfDigits (ds : List Char) : Nat :=
  ds.foldl (fun acc c => 10 * acc + (c.toNat - '0'.toNat)) 0

/-- `str::parse::<i64>`: optional sign, then a nonempty digit run, with
the `i64` range check. -/
def parseI64 (cs : List Char) : Option Int :=
  let signAndDigits : Bool × List Char :=
    match cs with
    | '-' :: rest => (true, rest)
    | '+' :: rest => (false, rest)
    | _ => (false, cs)
  let neg := signAndDigits.1
  let ds := signAndDigits.2
  if ds = [] ∨ ¬ ds.all Char.isDigit then none
  else if neg then
    if natOfDigits ds ≤ 2 ^ 63 then some (-(natOfDigits ds : Int)) else none
  else
    if natOfDigits ds ≤ i64MaxNat then some (natOfDigits ds : Int) else none

/-- `skip_whitespace`. -/
def skipWhitespace : List Char → List Char
  | [] => []
  | c :: cs => if c.isWhitespace then skipWhitespace cs else c :: cs

/-- The read loop of `read_comment` (the leading `//` is consumed by the
caller): characters up to, not including, the end of the line. -/
def readCommentAux : List Char → List Char × List Char
  | [] => ([], [])
  | c :: cs =>
    if c = '\n' ∨ c = '\r' then ([], c :: cs)
    else
      let r := readCommentAux cs
      (c :: r.1, r.2)

/-- The read loop of `read_identifier`: a maximal run of identifier
characters. -/
def readIdentAux : List Char → List Char × List Char
  | [] => ([], [])
  | c :: cs =>
    if isIdentChar c then
      let r := readIdentAux cs
      (c :: r.1, r.2)
    else ([], c :: cs)

/-- The digit-collecting loop of `read_number`. -/
def readNumberAux : List Char → List Char × List Char
  | [] => ([], [])
  | c :: cs =>
    if c.isDigit then
      let r := readNumberAux cs
      (c :: r.1, r.2)
    else ([], c :: cs)

/-- `read_number`: a maximal digit run, parsed as `i64` with
`unwrap_or(0)`. -/
def readNumber (cs : List Char) : Int × List Char :=
  let r := readNumberAux cs
  ((parseI64 r.1).getD 0, r.2)

/-- The read loop of `read_string_literal` (the opening parenthesis is
consumed by the caller): raw characters up to the next `)`, which is
consumed. -/
def readStrAux : List Char → List Char × List Char
  | [] => ([], [])
  | c :: cs =>
    if c = ')' then ([], cs)
    else
      let r := readStrAux cs
      (c :: r.1, r.2)

/-- Keyword classification at the end of `read_type_value`. -/
def keywordToken (ident : String) : Token :=
  match ident with
  | "String" => .typeString
  | "Integer" => .typeInteger
  | "True" => .typeTrue
  | "False" => .typeFalse
  | "Unknown" => .typeUnknown
  | "if" => .If
  | "func" => .Func
  | _ => .identifier ident

/-- `read_type_value`: read an identifier; if it is `String`/`Integer`
immediately followed by `(`, consume a parenthesised literal body and
emit a literal token; otherwise classify the identifier. -/
def readTypeValue (cs : List Char) : Token × List Char :=
  let r := readIdentAux cs
  let ident := String.mk r.1
  match r.2 with
  | '(' :: rest =>
    if ident = "String" then
      let s := readStrAux rest
      (.stringLiteral (String.mk s.1), s.2)
    else if ident = "Integer" then
      let s := readStrAux rest
      (.integerLiteral ((parseI64 s.1).getD 0), s.2)
    else (keywordToken ident, '(' :: rest)
  | rest => (keywordToken ident, rest)

/-- `next_token`, with fuel consumed by the self-call that skips an
unrecognised character. -/
def nextTokenFuel : Nat → List Char → Token × List Char
  | 0, cs => (.EOF, cs)
  | fuel + 1, cs₀ =>
    match skipWhitespace cs₀ with
    | [] => (.EOF, [])
    | '/' :: '/' :: rest =>
      let r := readCommentAux rest
      (.Comment (String.mk r.1).trim, r.2)
    | '[' :: rest => (.leftBracket, rest)
    | ']' :: rest => (.rightBracket, rest)
    | '\x7b' :: rest => (.leftBrace, rest)
    | '\x7d' :: rest => (.rightBrace, rest)
    | '(' :: rest => (.leftParen, rest)
    | ')' :: rest => (.rightParen, rest)
    | 'i' :: rest =>
      match rest with
      | 's' :: rest₂ =>
        match rest₂ with
        | ' ' :: rest₃ =>
          match rest₃ with
          | 'n' :: rest₄ =>
            match rest₄ with
            | 'o' :: rest₅ =>
              match rest₅ with
              | 't' :: rest₆ => (.notEquals, rest₆)
              | _ => (.equals, rest₅)
            | _ => (.equals, rest₄)
          | _ => (.equals, rest₃)
        | _ => (.equals, rest₂)
      | _ =>
        let r := readIdentAux rest
        let ident := String.mk ('i' :: r.1)
        (if ident = "if" then .If else .identifier ident, r.2)
    | ':' :: rest => (.colon, rest)
    | ',' :: rest => (.comma, rest)
    | c :: rest =>
      if c.isAlpha then readTypeValue (c :: rest)
      else if c.isDigit then
        let r := readNumber (c :: rest)
        (.integerLiteral r.1, r.2)
      else nextTokenFuel fuel rest

/-- `next_token`; the fuel `cs.length + 1` is shown sufficient below. -/
def nextToken (cs : List Char) : Token × List Char :=
  nextTokenFuel (cs.length + 1) cs

/-- The token-collecting loop of `tokenize`. -/
def tokenizeFuel : Nat → List Char → List Token
  | 0, _ => [.EOF]
  | fuel + 1, cs =>
    let r := nextToken cs
    if r.1 = .EOF then [Token.EOF] else r.1 :: tokenizeFuel fuel r.2

/-- `tokenize`; the fuel `cs.length + 1` is shown sufficient below. -/
def tokenize (cs : List Char) : List Token :=
  tokenizeFuel (cs.length + 1) cs

example : tokenize "String[Hello]".data =
    [.typeString, .leftBracket, .identifier "Hello", .rightBracket, .EOF] := rfl

example : tokenize "String(Hello)".data = [.stringLiteral "Hello", .EOF] := rfl

example : tokenize "if a is not b".data =
    [.If, .identifier "a", .notEquals, .identifier "b", .EOF] := rfl

example : tokenize "island".data = [.equals, .identifier "land", .EOF] := rfl

/-! ## Abstract syntax, from `parser.rs` -/

/-- `enum Expression`. -/
inductive Expression where
  | stringLiteral (s : String)
  | integerLiteral (i : Int)
  | identifier (name : String)
  | functionCall (name : String) (arguments : List Expression)
  | typedValue (type_name : String) (value : Expression)
  | binaryOperation (left : Expression) (operator : String) (right : Expression)

/-- `struct Parameter`. -/
structure Parameter where
  name : String
  type_name : String

/-- `enum Statement`. -/
inductive Statement where
  | expression (e : Expression)
  | functionDeclaration (name : String) (parameters : List Parameter)
      (body : List Statement)
  | ifStatement (condition : Expression) (body : List Statement)
  | comment (s : String)

/-- `struct Program`. -/
structure Program where
  statements : List Statement

/-! ## Parser, from `parser.rs`

The parser's token vector and cursor are modelled by the list of not yet
consumed tokens: `peek_token` is the head (`EOF` past the end), `advance`
drops the head.  Each parsing function returns the parsed node together
with the remaining tokens, or the error message of the first structural
violation. -/

/-- `peek_token`. -/
def peekToken (ts : List Token) : Token :=
  ts.headD .EOF

/-- The collection loop of `parse_parameters`. -/
def parseParametersLoop : Nat → List Token →
    Except String (List Parameter × List Token)
  | 0, _ => .error "out of fuel"
  | fuel + 1, ts =>
    match peekToken ts with
    | .identifier name =>
      let ts₁ := ts.tail
      if peekToken ts₁ = .colon then
        let typeResult : Except String (String × List Token) :=
          match peekToken ts₁.tail with
          | .typeString => .ok ("String", ts₁.tail.tail)
          | .typeInteger => .ok ("Integer", ts₁.tail.tail)
          | .typeUnknown => .ok ("Unknown", ts₁.tail.tail)
          | .identifier type_name => .ok (type_name, ts₁.tail.tail)
          | _ => .error "Expected type name after \x27:\x27"
        match typeResult with
        | .error e => .error e
        | .ok (type_name, ts₂) =>
          if peekToken ts₂ = .rightParen then
            .ok ([⟨name, type_name⟩], ts₂)
          else if peekToken ts₂ = .comma then
            match parseParametersLoop fuel ts₂.tail with
            | .ok (rest, ts₃) => .ok (⟨name, type_name⟩ :: rest, ts₃)
            | .error e => .error e
          else .error "Expected \x27,\x27 between parameters"
      else .error "Expected \x27:\x27 after parameter name"
    | _ => .error "Expected parameter name"

/-- `parse_parameters`. -/
def parseParameters : Nat → List Token →
    Except String (List Parameter × List Token)
  | 0, _ => .error "out of fuel"
  | fuel + 1, ts =>
    if peekToken ts = .rightParen then .ok ([], ts)
    else parseParametersLoop fuel ts

mutual

/-- `parse_statement` and the functions it calls. -/
def parseStatement : Nat → List Token → Except String (Statement × List Token)
  | 0, _ => .error "out of fuel"
  | fuel + 1, ts =>
    match peekToken ts with
    | .Func => parseFunctionDeclaration fuel ts
    | .If => parseIfStatement fuel ts
    | .Comment c => .ok (.comment c, ts.tail)
    | _ =>
      match parseExpression fuel ts with
      | .ok (e, ts₁) => .ok (.expression e, ts₁)
      | .error e => .error e

/-- `parse_function_declaration` (the `func` token is still at the head). -/
def parseFunctionDeclaration : Nat → List Token →
    Except String (Statement × List Token)
  | 0, _ => .error "out of fuel"
  | fuel + 1, ts =>
    let ts₁ := ts.tail
    match peekToken ts₁ with
    | .identifier name =>
      let ts₂ := ts₁.tail
      if peekToken ts₂ = .leftParen then
        match parseParameters fuel ts₂.tail with
        | .error e => .error e
        | .ok (parameters, ts₃) =>
          if peekToken ts₃ = .rightParen then
            if peekToken ts₃.tail = .leftBrace then
              match parseStatementsUntilBrace fuel ts₃.tail.tail with
              | .error e => .error e
              | .ok (body, ts₄) =>
                if peekToken ts₄ = .rightBrace then
                  .ok (.functionDeclaration name parameters body, ts₄.tail)
                else .error "Expected \x27\x7d\x27 after function body"
            else .error "Expected \x27\x7b\x27 after function declaration"
          else .error "Expected \x27)\x27 after parameters"
      else .error "Expected \x27(\x27 after function name"
    | _ => .error "Expected function name after \x27func\x27 keyword"

/-- `parse_if_statement` (the `if` token is still at the head). -/
def parseIfStatement : Nat → List Token →
    Except String (Statement × List Token)
  | 0, _ => .error "out of fuel"
  | fuel + 1, ts =>
    match parseExpression fuel ts.tail with
    | .error e => .error e
    | .ok (condition, ts₁) =>
      if peekToken ts₁ = .leftBrace then
        match parseStatementsUntilBrace fuel ts₁.tail with
        | .error e => .error e
        | .ok (body, ts₂) =>
          if peekToken ts₂ = .rightBrace then
            .ok (.ifStatement condition body, ts₂.tail)
          else .error "Expected \x27\x7d\x27 after if body"
      else .error "Expected \x27\x7b\x27 after if condition"

/-- The statement-collecting loops of `parse_function_declaration` and
`parse_if_statement`: parse statements while the next token is neither
`}` nor `EOF`. -/
def parseStatementsUntilBrace : Nat → List Token →
    Except String (List Statement × List Token)
  | 0, _ => .error "out of fuel"
  | fuel + 1, ts =>
    if peekToken ts = .rightBrace ∨ peekToken ts = .EOF then .ok ([], ts)
    else
      match parseStatement fuel ts with
      | .error e => .error e
      | .ok (s, ts₁) =>
        match parseStatementsUntilBrace fuel ts₁ with
        | .ok (rest, ts₂) => .ok (s :: rest, ts₂)
        | .error e => .error e

/-- `parse_expression`: a primary expression, optionally followed by one
`is` / `is not` suffix. -/
def parseExpression : Nat → List Token →
    Except String (Expression × List Token)
  | 0, _ => .error "out of fuel"
  | fuel + 1, ts =>
    match parsePrimaryExpression fuel ts with
    | .error e => .error e
    | .ok (e, ts₁) =>
      if peekToken ts₁ = .equals then
        match parsePrimaryExpression fuel ts₁.tail with
        | .ok (right, ts₂) => .ok (.binaryOperation e "is" right, ts₂)
        | .error err => .error err
      else if peekToken ts₁ = .notEquals then
        match parsePrimaryExpression fuel ts₁.tail with
        | .ok (right, ts₂) => .ok (.binaryOperation e "is not" right, ts₂)
        | .error err => .error err
      else .ok (e, ts₁)

/-- `parse_primary_expression`. -/
def parsePrimaryExpression : Nat → List Token →
    Except String (Expression × List Token)
  | 0, _ => .error "out of fuel"
  | fuel + 1, ts =>
    match peekToken ts with
    | .stringLiteral s => .ok (.stringLiteral s, ts.tail)
    | .integerLiteral i => .ok (.integerLiteral i, ts.tail)
    | .identifier name =>
      let ts₁ := ts.tail
      if peekToken ts₁ = .leftParen then
        match parseArguments fuel ts₁.tail with
        | .error e => .error e
        | .ok (arguments, ts₂) =>
          if peekToken ts₂ = .rightParen then
            .ok (.functionCall name arguments, ts₂.tail)
          else .error "Expected \x27)\x27 after function arguments"
      else .ok (.identifier name, ts₁)
    | .typeString =>
      match parseBracketedValue fuel "String" ts.tail with
      | .ok r => .ok r
      | .error e => .error e
    | .typeInteger =>
      match parseBracketedValue fuel "Integer" ts.tail with
      | .ok r => .ok r
      | .error e => .error e
    | .typeTrue => .ok (.identifier "True", ts.tail)
    | .typeFalse => .ok (.identifier "False", ts.tail)
    | _ => .error "Unexpected token"

/-- The typed-value arm of `parse_primary_expression`: after the type
name, expect `[ Expr ]`. -/
def parseBracketedValue : Nat → String → List Token →
    Except String (Expression × List Token)
  | 0, _, _ => .error "out of fuel"
  | fuel + 1, type_name, ts =>
    if peekToken ts = .leftBracket then
      match parseExpression fuel ts.tail with
      | .error e => .error e
      | .ok (value, ts₁) =>
        if peekToken ts₁ = .rightBracket then
          .ok (.typedValue type_name value, ts₁.tail)
        else .error "Expected \x27]\x27 after type value"
    else .error "Expected \x27[\x27 after type name"

/-- `parse_arguments`. -/
def parseArguments : Nat → List Token →
    Except String (List Expression × List Token)
  | 0, _ => .error "out of fuel"
  | fuel + 1, ts =>
    if peekToken ts = .rightParen then .ok ([], ts)
    else parseArgumentsLoop fuel ts

/-- The collection loop of `parse_arguments`. -/
def parseArgumentsLoop : Nat → List Token →
    Except String (List Expression × List Token)
  | 0, _ => .error "out of fuel"
  | fuel + 1, ts =>
    match parseExpression fuel ts with
    | .error e => .error e
    | .ok (argument, ts₁) =>
      if peekToken ts₁ = .rightParen then .ok ([argument], ts₁)
      else if peekToken ts₁ = .comma then
        match parseArgumentsLoop fuel ts₁.tail with
        | .ok (rest, ts₂) => .ok (argument :: rest, ts₂)
        | .error e => .error e
      else .error "Expected \x27,\x27 between arguments"

end

/-- The statement loop of `parse`: parse statements until `EOF`. -/
def parseProgramLoop : Nat → List Token →
    Except String (List Statement × List Token)
  | 0, _ => .error "out of fuel"
  | fuel + 1, ts =>
    if peekToken ts = .EOF then .ok ([], ts)
    else
      match parseStatement fuel ts with
      | .error e => .error e
      | .ok (s, ts₁) =>
        match parseProgramLoop fuel ts₁ with
        | .ok (rest, ts₂) => .ok (s :: rest, ts₂)
        | .error e => .error e

/-- `parse`. -/
def parse (fuel : Nat) (ts : List Token) : Except String Program :=
  match parseProgramLoop fuel ts with
  | .ok (statements, _) => .ok ⟨statements⟩
  | .error e => .error e

/-! ## Type checker, from `typechecker.rs` -/

/-- `enum Type`. -/
inductive Ty where
  | string
  | integer
  | boolean
  | void
  | function (parameters : List Ty) (return_type : Ty)
  | unknown

mutual

/-- `impl Display for Type`. -/
def tyToString : Ty → String
  | .string => "String"
  | .integer => "Integer"
  | .boolean => "Boolean"
  | .void => "Void"
  | .function parameters return_type =>
    "fn(" ++ tyListToString parameters true ++ ") -> " ++ tyToString return_type
  | .unknown => "Unknown"

/-- The parameter loop of `Display for Type`: `", "` before every
parameter except the first. -/
def tyListToString : List Ty → Bool → String
  | [], _ => ""
  | t :: ts, first =>
    (if first then "" else ", ") ++ tyToString t ++ tyListToString ts false

end

mutual

/-- `PartialEq` on `Type` (derived structural equality). -/
def tyBEq : Ty → Ty → Bool
  | .string, .string => true
  | .integer, .integer => true
  | .boolean, .boolean => true
  | .void, .void => true
  | .function ps r, .function ps₂ r₂ => tyListBEq ps ps₂ && tyBEq r r₂
  | .unknown, .unknown => true
  | _, _ => false

/-- `PartialEq` on `Vec<Type>`. -/
def tyListBEq : List Ty → List Ty → Bool
  | [], [] => true
  | t :: ts, t₂ :: ts₂ => tyBEq t t₂ && tyListBEq ts ts₂
  | _, _ => false

end

/-- Name-to-value frame lookup (`HashMap::get` followed by `clone`),
first match wins. -/
def lookupName {α : Type} : List (String × α) → String → Option α
  | [], _ => none
  | (k, v) :: rest, name => if k = name then some v else lookupName rest name

/-- `HashMap::insert`: replace the binding if the key is present,
otherwise add it. -/
def insertName {α : Type} : List (String × α) → String → α → List (String × α)
  | [], name, v => [(name, v)]
  | (k, w) :: rest, name, v =>
    if k = name then (name, v) :: rest else (k, w) :: insertName rest name v

/-- `struct TypeEnvironment`: a frame of bindings plus an optional
parent scope. -/
inductive TypeEnvironment where
  | mk (types : List (String × Ty)) (parent : Option TypeEnvironment)

/-- `TypeEnvironment::new`: the root scope, pre-populated with `print`
and the dummy `function`. -/
def TypeEnvironment.new : TypeEnvironment :=
  .mk [("function", .function [.unknown] .unknown),
       ("print", .function [.unknown] .void)] none

/-- `TypeEnvironment::extend`. -/
def TypeEnvironment.extend (parent : TypeEnvironment) : TypeEnvironment :=
  .mk [] (some parent)

/-- `TypeEnvironment::define`. -/
def TypeEnvironment.define : TypeEnvironment → String → Ty → TypeEnvironment
  | .mk types parent, name, ty => .mk (insertName types name ty) parent

/-- `TypeEnvironment::get`: look in the current frame, then in the
parent chain. -/
def TypeEnvironment.get : TypeEnvironment → String → Option Ty
  | .mk types parent, name =>
    match lookupName types name with
    | some ty => some ty
    | none =>
      match parent with
      | some p => p.get name
      | none => none

/-- `TypeChecker::parse_type_name`. -/
def parseTypeName (name : String) : Ty :=
  match name with
  | "String" => .string
  | "Integer" => .integer
  | "Boolean" => .boolean
  | "Unknown" => .unknown
  | _ => .unknown

/-- `TypeChecker::types_compatible`: either side `Unknown` is allowed,
otherwise the types must match exactly. -/
def typesCompatible (actual expected : Ty) : Bool :=
  if tyBEq expected .unknown || tyBEq actual .unknown then true
  else tyBEq actual expected

mutual

/-- `TypeChecker::check_expression`.  It reads but never modifies the
type environment, so no environment is returned. -/
def checkExpression : Nat → TypeEnvironment → Expression → Except String Ty
  | 0, _, _ => .error "out of fuel"
  | fuel + 1, env, e =>
    match e with
    | .stringLiteral _ => .ok .string
    | .integerLiteral _ => .ok .integer
    | .identifier name =>
      match env.get name with
      | some ty => .ok ty
      | none => .error ("Undefined variable \x27" ++ name ++ "\x27")
    | .functionCall name arguments =>
      match env.get name with
      | none => .error ("Undefined function \x27" ++ name ++ "\x27")
      | some funcType =>
        if name = "print" then
          match checkArgumentsAny fuel env arguments with
          | .ok _ => .ok .void
          | .error e => .error e
        else if name = "function" then
          match arguments with
          | [] => .ok .unknown
          | arg :: _ => checkExpression fuel env arg
        else
          match funcType with
          | .function parameters return_type =>
            if arguments.length ≠ parameters.length then
              .error ("Function \x27" ++ name ++ "\x27 expects " ++
                toString parameters.length ++ " arguments, got " ++
                toString arguments.length)
            else
              match checkArgumentsAgainst fuel env arguments parameters with
              | .ok _ => .ok return_type
              | .error e => .error e
          | _ => .error ("\x27" ++ name ++ "\x27 is not a function")
    | .typedValue type_name value =>
      let expectedType := parseTypeName type_name
      match value with
      | .identifier _ => .ok expectedType
      | _ =>
        match checkExpression fuel env value with
        | .error e => .error e
        | .ok valueType =>
          if ¬ typesCompatible valueType expectedType then
            .error ("Type mismatch: expected " ++ tyToString expectedType ++
              ", got " ++ tyToString valueType)
          else .ok expectedType
    | .binaryOperation left operator right =>
      match checkExpression fuel env left with
      | .error e => .error e
      | .ok _ =>
        match checkExpression fuel env right with
        | .error e => .error e
        | .ok _ =>
          if operator = "is" ∨ operator = "is not" then .ok .boolean
          else .error ("Unknown operator: " ++ operator)

/-- The `print` argument loop of `check_expression`: every argument is
checked, its type discarded. -/
def checkArgumentsAny : Nat → TypeEnvironment → List Expression →
    Except String Unit
  | 0, _, _ => .error "out of fuel"
  | _ + 1, _, [] => .ok ()
  | fuel + 1, env, arg :: rest =>
    match checkExpression fuel env arg with
    | .error e => .error e
    | .ok _ => checkArgumentsAny fuel env rest

/-- The argument loop of `check_expression` for ordinary calls: each
argument's type must be compatible with the declared parameter type
(`zip` semantics, as in the source). -/
def checkArgumentsAgainst : Nat → TypeEnvironment → List Expression →
    List Ty → Except String Unit
  | 0, _, _, _ => .error "out of fuel"
  | _ + 1, _, [], _ => .ok ()
  | _ + 1, _, _ :: _, [] => .ok ()
  | fuel + 1, env, arg :: args, paramType :: paramTypes =>
    match checkExpression fuel env arg with
    | .error e => .error e
    | .ok argType =>
      if ¬ typesCompatible argType paramType then
        .error ("Type mismatch: expected " ++ tyToString paramType ++
          ", got " ++ tyToString argType)
      else checkArgumentsAgainst fuel env args paramTypes

end

mutual

/-- `TypeChecker::check_statement`.  Statements can add bindings, so the
(possibly grown) environment is returned alongside the statement's
type. -/
def checkStatement : Nat → TypeEnvironment → Statement →
    Except String (Ty × TypeEnvironment)
  | 0, _, _ => .error "out of fuel"
  | fuel + 1, env, s =>
    match s with
    | .expression e =>
      match checkExpression fuel env e with
      | .ok ty => .ok (ty, env)
      | .error err => .error err
    | .functionDeclaration name parameters body =>
      let paramTypes := parameters.map (fun p => parseTypeName p.type_name)
      let funcType := Ty.function paramTypes .void
      let env₁ := env.define name funcType
      let bodyEnv := (parameters.zip paramTypes).foldl
        (fun acc pt => acc.define pt.1.name pt.2)
        (TypeEnvironment.extend env₁)
      match checkStatementsSeq fuel bodyEnv body with
      | .error e => .error e
      | .ok _ => .ok (.void, env₁)
    | .ifStatement condition body =>
      match checkExpression fuel env condition with
      | .error e => .error e
      | .ok condType =>
        if ¬ tyBEq condType .boolean ∧ ¬ tyBEq condType .unknown then
          .error ("If condition must be a boolean, got " ++ tyToString condType)
        else
          match checkStatementsSeq fuel env body with
          | .error e => .error e
          | .ok env₁ => .ok (.void, env₁)
    | .comment _ => .ok (.void, env)

/-- The statement loops of `check_statement` and `check_program`:
statements checked in order, threading the environment. -/
def checkStatementsSeq : Nat → TypeEnvironment → List Statement →
    Except String TypeEnvironment
  | 0, _, _ => .error "out of fuel"
  | _ + 1, env, [] => .ok env
  | fuel + 1, env, s :: rest =>
    match checkStatement fuel env s with
    | .error e => .error e
    | .ok (_, env₁) => checkStatementsSeq fuel env₁ rest

end

/-- `TypeChecker::check_program`, started from `TypeChecker::new`'s
root environment. -/
def checkProgram (fuel : Nat) (program : Program) : Except String Unit :=
  match checkStatementsSeq fuel TypeEnvironment.new program.statements with
  | .ok _ => .ok ()
  | .error e => .error e

/-! ## Interpreter, from `interpreter.rs` -/

/-- `enum Value`. -/
inductive Value where
  | string (s : String)
  | integer (i : Int)
  | boolean (b : Bool)
  | null
  | function (name : String) (parameters : List Parameter)
      (body : List Statement)

/-- `impl Display for Value`: the form `print` writes, one line per
value. -/
def Value.display : Value → String
  | .string s => s
  | .integer i => toString i
  | .boolean b => if b then "true" else "false"
  | .null => "null"
  | .function name _ _ => "<function " ++ name ++ ">"

/-- The `{:?}` (`Debug`) rendering of a `Value`, used in the typed-value
mismatch message.  For function values the derived form would recurse
into the stored body; no statement below depends on that case, so it is
rendered by name only. -/
def Value.debugStr : Value → String
  | .string s => "String(\x22" ++ s ++ "\x22)"
  | .integer i => "Integer(" ++ toString i ++ ")"
  | .boolean b => "Boolean(" ++ (if b then "true" else "false") ++ ")"
  | .null => "Null"
  | .function name _ _ => "Function \x7b name: \x22" ++ name ++ "\x22 \x7d"

/-- `struct Environment`: a frame of bindings plus an optional parent
scope. -/
inductive Environment where
  | mk (values : List (String × Value)) (parent : Option Environment)

/-- `Environment::new`: the root scope, pre-populated with the built-in
`print` function value. -/
def Environment.new : Environment :=
  .mk [("print", .function "print" [] [])] none

/-- `Environment::extend`. -/
def Environment.extend (parent : Environment) : Environment :=
  .mk [] (some parent)

/-- `Environment::define`. -/
def Environment.define : Environment → String → Value → Environment
  | .mk values parent, name, v => .mk (insertName values name v) parent

/-- `Environment::get`: look in the current frame, then in the parent
chain. -/
def Environment.get : Environment → String → Option Value
  | .mk values parent, name =>
    match lookupName values name with
    | some v => some v
    | none =>
      match parent with
      | some p => p.get name
      | none => none

/-- `Environment::assign`: overwrite the closest existing binding, or
fail if the name is bound nowhere in the chain. -/
def Environment.assign : Environment → String → Value →
    Except String Environment
  | .mk values parent, name, v =>
    if values.any (fun p => p.1 = name) then
      .ok (.mk (insertName values name v) parent)
    else
      match parent with
      | some p =>
        match p.assign name v with
        | .ok p₁ => .ok (.mk values (some p₁))
        | .error e => .error e
      | none => .error ("Undefined variable \x27" ++ name ++ "\x27")

/-- `Interpreter::is_truthy`. -/
def isTruthy : Value → Bool
  | .boolean b => b
  | .null => false
  | .integer i => i ≠ 0
  | .string s => ¬ s.isEmpty
  | .function _ _ _ => true

/-- `Interpreter::values_equal`: structural equality on like variants,
`false` across variants. -/
def valuesEqual : Value → Value → Bool
  | .string a, .string b => a = b
  | .integer a, .integer b => a = b
  | .boolean a, .boolean b => a = b
  | .null, .null => true
  | _, _ => false

/-- Binding the parameters in the callee scope: `for (param, value) in
parameters.iter().zip(arg_values) { env.define(...) }`. -/
def bindParameters (parameters : List Parameter) (values : List Value)
    (env : Environment) : Environment :=
  (parameters.zip values).foldl (fun acc pv => acc.define pv.1.name pv.2) env

/-- Result of one interpreter step: the value or error message, together
with the environment and the output lines as the step left them (errors
return early in the source, leaving both behind). -/
abbrev EvalResult := Except String Value × Environment × List String

mutual

/-- `Interpreter::evaluate_expression`. -/
def evalExpression : Nat → Environment → List String → Expression →
    EvalResult
  | 0, env, out, _ => (.error "out of fuel", env, out)
  | fuel + 1, env, out, e =>
    match e with
    | .stringLiteral s => (.ok (.string s), env, out)
    | .integerLiteral i => (.ok (.integer i), env, out)
    | .identifier name =>
      match env.get name with
      | some v => (.ok v, env, out)
      | none => (.error ("Undefined variable \x27" ++ name ++ "\x27"), env, out)
    | .functionCall name arguments =>
      match env.get name with
      | none => (.error ("Undefined function \x27" ++ name ++ "\x27"), env, out)
      | some fv =>
        match fv with
        | .function fname parameters body =>
          if fname = "print" then
            match evalArgumentsLoop fuel env out arguments with
            | (.ok values, env₁, out₁) =>
              (.ok .null, env₁, out₁ ++ values.map Value.display)
            | (.error e, env₁, out₁) => (.error e, env₁, out₁)
          else if arguments.length ≠ parameters.length then
            (.error ("Expected " ++ toString parameters.length ++
              " arguments but got " ++ toString arguments.length), env, out)
          else
            match evalArgumentsLoop fuel env out arguments with
            | (.error e, env₁, out₁) => (.error e, env₁, out₁)
            | (.ok values, env₁, out₁) =>
              match execStatementsLoop fuel
                  (bindParameters parameters values (Environment.extend env₁))
                  out₁ .null body with
              | (.ok v, _, out₂) => (.ok v, env₁, out₂)
              | (.error e, env₂, out₂) => (.error e, env₂, out₂)
        | _ => (.error ("\x27" ++ name ++ "\x27 is not a function"), env, out)
    | .typedValue type_name value =>
      match value with
      | .identifier ident =>
        if type_name = "String" then (.ok (.string ident), env, out)
        else if type_name = "Integer" then
          match parseI64 ident.data with
          | some i => (.ok (.integer i), env, out)
          | none =>
            (.error ("Cannot convert \x27" ++ ident ++ "\x27 to Integer"),
              env, out)
        else
          -- the `_ => ()` arm of the special case falls through to the
          -- generic path below, evaluating the identifier as a variable
          match evalExpression fuel env out value with
          | (.error e, env₁, out₁) => (.error e, env₁, out₁)
          | (.ok innerValue, env₁, out₁) =>
            match type_name, innerValue with
            | "String", .string _ => (.ok innerValue, env₁, out₁)
            | "Integer", .integer _ => (.ok innerValue, env₁, out₁)
            | _, _ =>
              (.error ("Type mismatch: expected " ++ type_name ++ ", got " ++
                innerValue.debugStr), env₁, out₁)
      | _ =>
        match evalExpression fuel env out value with
        | (.error e, env₁, out₁) => (.error e, env₁, out₁)
        | (.ok innerValue, env₁, out₁) =>
          match type_name, innerValue with
          | "String", .string _ => (.ok innerValue, env₁, out₁)
          | "Integer", .integer _ => (.ok innerValue, env₁, out₁)
          | _, _ =>
            (.error ("Type mismatch: expected " ++ type_name ++ ", got " ++
              innerValue.debugStr), env₁, out₁)
    | .binaryOperation left operator right =>
      match evalExpression fuel env out left with
      | (.error e, env₁, out₁) => (.error e, env₁, out₁)
      | (.ok leftValue, env₁, out₁) =>
        match evalExpression fuel env₁ out₁ right with
        | (.error e, env₂, out₂) => (.error e, env₂, out₂)
        | (.ok rightValue, env₂, out₂) =>
          if operator = "is" then
            (.ok (.boolean (valuesEqual leftValue rightValue)), env₂, out₂)
          else if operator = "is not" then
            (.ok (.boolean (¬ valuesEqual leftValue rightValue)), env₂, out₂)
          else (.error ("Unknown operator: " ++ operator), env₂, out₂)

/-- The argument loops of `evaluate_expression`: arguments evaluated
left to right, collecting their values. -/
def evalArgumentsLoop : Nat → Environment → List String →
    List Expression → Except String (List Value) × Environment × List String
  | 0, env, out, _ => (.error "out of fuel", env, out)
  | _ + 1, env, out, [] => (.ok [], env, out)
  | fuel + 1, env, out, arg :: rest =>
    match evalExpression fuel env out arg with
    | (.error e, env₁, out₁) => (.error e, env₁, out₁)
    | (.ok v, env₁, out₁) =>
      match evalArgumentsLoop fuel env₁ out₁ rest with
      | (.ok vs, env₂, out₂) => (.ok (v :: vs), env₂, out₂)
      | (.error e, env₂, out₂) => (.error e, env₂, out₂)

/-- `Interpreter::execute_statement`. -/
def execStatement : Nat → Environment → List String → Statement →
    EvalResult
  | 0, env, out, _ => (.error "out of fuel", env, out)
  | fuel + 1, env, out, s =>
    match s with
    | .expression e => evalExpression fuel env out e
    | .functionDeclaration name parameters body =>
      (.ok .null, env.define name (.function name parameters body), out)
    | .ifStatement condition body =>
      match evalExpression fuel env out condition with
      | (.error e, env₁, out₁) => (.error e, env₁, out₁)
      | (.ok conditionValue, env₁, out₁) =>
        if isTruthy conditionValue then
          execStatementsLoop fuel env₁ out₁ .null body
        else (.ok .null, env₁, out₁)
    | .comment _ => (.ok .null, env, out)

/-- The statement loops of the interpreter (`if` bodies, call bodies,
`interpret`): statements executed in order, keeping the last value
(starting from `Null`). -/
def execStatementsLoop : Nat → Environment → List String → Value →
    List Statement → EvalResult
  | 0, env, out, _, _ => (.error "out of fuel", env, out)
  | _ + 1, env, out, result, [] => (.ok result, env, out)
  | fuel + 1, env, out, _, s :: rest =>
    match execStatement fuel env out s with
    | (.error e, env₁, out₁) => (.error e, env₁, out₁)
    | (.ok v, env₁, out₁) => execStatementsLoop fuel env₁ out₁ v rest

end

/-- `Interpreter::interpret`, started from `Interpreter::new`'s root
environment with no output written yet. -/
def interpret (fuel : Nat) (program : Program) :
    Except String Unit × Environment × List String :=
  match execStatementsLoop fuel Environment.new [] .null program.statements with
  | (.ok _, env, out) => (.ok (), env, out)
  | (.error e, env, out) => (.error e, env, out)

/-! ## The full pipeline, as driven by `main.rs` -/

/-- Tokenize, parse, type check, interpret; on success the result is the
list of lines `print` wrote, in order. -/
def runPipeline (fuel : Nat) (source : String) : Except String (List String) :=
  let tokens := tokenize source.data
  match parse fuel tokens with
  | .error e => .error e
  | .ok program =>
    match checkProgram fuel program with
    | .error e => .error e
    | .ok _ =>
      match interpret fuel program with
      | (.ok _, _, out) => .ok out
      | (.error e, _, _) => .error e

/-- Tokenize, parse and type check only. -/
def runToCheck (fuel : Nat) (source : String) : Except String Unit :=
  match parse fuel (tokenize source.data) with
  | .error e => .error e
  | .ok program => checkProgram fuel program

/-! ## Lexer lemmas: totality and fuel sufficiency -/

theorem skipWhitespace_length (cs : List Char) :
    (skipWhitespace cs).length ≤ cs.length := by
  induction cs with
  | nil => simp [skipWhitespace]
  | cons c cs ih =>
    simp only [skipWhitespace]
    split
    · exact Nat.le_trans ih (by simp)
    · exact Nat.le_refl _

theorem readCommentAux_length (cs : List Char) :
    (readCommentAux cs).2.length ≤ cs.length := by
  induction cs with
  | nil => simp [readCommentAux]
  | cons c cs ih =>
    simp only [readCommentAux]
    split
    · simp
    · simpa using Nat.le_trans ih (by simp)

theorem readIdentAux_length (cs : List Char) :
    (readIdentAux cs).2.length ≤ cs.length := by
  induction cs with
  | nil => simp [readIdentAux]
  | cons c cs ih =>
    simp only [readIdentAux]
    split
    · simpa using Nat.le_trans ih (by simp)
    · simp

theorem readNumberAux_length (cs : List Char) :
    (readNumberAux cs).2.length ≤ cs.length := by
  induction cs with
  | nil => simp [readNumberAux]
  | cons c cs ih =>
    simp only [readNumberAux]
    split
    · simpa using Nat.le_trans ih (by simp)
    · simp

theorem readStrAux_length (cs : List Char) :
    (readStrAux cs).2.length ≤ cs.length := by
  induction cs with
  | nil => simp [readStrAux]
  | cons c cs ih =>
    simp only [readStrAux]
    split
    · simp
    · simpa using Nat.le_trans ih (by simp)

theorem isIdentChar_of_isAlpha {c : Char} (h : c.isAlpha = true) :
    isIdentChar c = true := by
  simp [isIdentChar, Char.isAlphanum, h]

theorem readTypeValue_length (c : Char) (cs : List Char)
    (h : isIdentChar c = true) :
    (readTypeValue (c :: cs)).2.length ≤ cs.length := by
  have hident := readIdentAux_length cs
  simp only [readTypeValue, readIdentAux, h, if_true]
  split
  · next r heq =>
    rw [heq] at hident
    simp only [List.length_cons] at hident
    have hstr := readStrAux_length r
    split
    · simp only []
      omega
    · split
      · simp only []
        omega
      · simp only [List.length_cons]
        omega
  · simpa using hident

theorem readNumber_length_of_digit (c : Char) (cs : List Char)
    (h : c.isDigit = true) : (readNumber (c :: cs)).2.length ≤ cs.length := by
  simp only [readNumber, readNumberAux, h, if_true]
  exact readNumberAux_length cs

/-- Every token other than `EOF` consumes at least one character, given
enough fuel. -/
theorem nextTokenFuel_progress : ∀ fuel cs t rest, cs.length < fuel →
    nextTokenFuel fuel cs = (t, rest) →
    t = Token.EOF ∨ rest.length < cs.length := by
  intro fuel
  induction fuel with
  | zero => intro cs t rest hlen _; exact absurd hlen (Nat.not_lt_zero _)
  | succ f ih =>
    intro cs t rest hlen heq
    have hws := skipWhitespace_length cs
    simp only [nextTokenFuel] at heq
    rcases hds : skipWhitespace cs with _ | ⟨c, ds⟩
    · rw [hds] at heq
      simp at heq
      left
      exact heq.1.symm
    · rw [hds] at heq hws
      simp only [List.length_cons] at hws
      split at heq
      · -- empty list pattern, impossible under `cons`
        rename_i hemp
        exact absurd hemp (by simp)
      · -- comment
        rename_i r hpat
        cases heq
        injection hpat with hc hds₂
        subst hds₂
        simp only [List.length_cons] at hws
        have := readCommentAux_length r
        right
        omega
      · -- left bracket
        rename_i r hpat
        cases heq
        injection hpat with hc hds₂
        subst hds₂
        right
        omega
      · rename_i r hpat
        cases heq
        injection hpat with hc hds₂
        subst hds₂
        right
        omega
      · rename_i r hpat
        cases heq
        injection hpat with hc hds₂
        subst hds₂
        right
        omega
      · rename_i r hpat
        cases heq
        injection hpat with hc hds₂
        subst hds₂
        right
        omega
      · rename_i r hpat
        cases heq
        injection hpat with hc hds₂
        subst hds₂
        right
        omega
      · rename_i r hpat
        cases heq
        injection hpat with hc hds₂
        subst hds₂
        right
        omega
      · -- the `i` disambiguation
        rename_i r hpat
        injection hpat with hc hds₂
        subst hds₂
        have hri := readIdentAux_length ds
        repeat' split at heq
        all_goals cases heq
        all_goals right
        all_goals simp_all
        all_goals omega
      · rename_i r hpat
        cases heq
        injection hpat with hc hds₂
        subst hds₂
        right
        omega
      · rename_i r hpat
        cases heq
        injection hpat with hc hds₂
        subst hds₂
        right
        omega
      · -- alphabetic / digit / skip
        rename_i d r _ _ _ _ _ _ _ _ _ _ hpat
        injection hpat with hc hds₂
        subst hc
        subst hds₂
        split at heq
        · -- alphabetic: `read_type_value`
          rename_i halpha
          right
          have h₂ := readTypeValue_length c ds (isIdentChar_of_isAlpha halpha)
          rw [heq] at h₂
          simp only [] at h₂
          omega
        · split at heq
          · -- digit: `read_number`
            rename_i hdigit
            cases heq
            right
            have := readNumber_length_of_digit c ds hdigit
            omega
          · -- unrecognised character: skipped, scan resumes
            rcases ih ds t rest (by omega) heq with hEOF | hlt
            · left
              exact hEOF
            · right
              omega

/-- With fuel exceeding the input length, `tokenize`'s loop produces a
stream that ends in exactly one `EOF` token. -/
theorem tokenizeFuel_single_EOF : ∀ fuel cs, cs.length < fuel →
    ∃ ts, tokenizeFuel fuel cs = ts ++ [Token.EOF] ∧ Token.EOF ∉ ts := by
  intro fuel
  induction fuel with
  | zero => intro cs hlen; exact absurd hlen (Nat.not_lt_zero _)
  | succ f ih =>
    intro cs hlen
    rcases hr : nextToken cs with ⟨t, rest⟩
    by_cases ht : t = Token.EOF
    · subst ht
      refine ⟨[], ?_, by simp⟩
      simp [tokenizeFuel, hr]
    · have hprog := nextTokenFuel_progress (cs.length + 1) cs t rest
        (Nat.lt_succ_self _) hr
      rcases hprog with hEOF | hlt
      · exact absurd hEOF ht
      · obtain ⟨ts, hts, hmem⟩ := ih rest (by omega)
        refine ⟨t :: ts, ?_, ?_⟩
        · simp [tokenizeFuel, hr, ht, hts]
        · simp only [List.mem_cons, not_or]
          exact ⟨fun h => ht h.symm, hmem⟩

/-- The digit loop of `read_number` takes the maximal digit run. -/
theorem readNumberAux_eq (cs : List Char) :
    readNumberAux cs = (cs.takeWhile Char.isDigit, cs.dropWhile Char.isDigit) := by
  induction cs with
  | nil => simp [readNumberAux]
  | cons c cs ih =>
    simp only [readNumberAux, List.takeWhile, List.dropWhile, ih]
    split <;> simp_all

/-- On a (possibly empty) pure digit run, `parse::<i64>` succeeds
exactly on nonempty runs whose value fits in an `i64`. -/
theorem parseI64_digits (ds : List Char) (h : ds.all Char.isDigit = true) :
    parseI64 ds = if ds = [] then none
      else if natOfDigits ds ≤ i64MaxNat then some ((natOfDigits ds : Int))
      else none := by
  rcases ds with _ | ⟨c, rest⟩
  · simp [parseI64]
  · simp only [List.all_cons, Bool.and_eq_true] at h
    have hminus : c ≠ '-' := by
      intro e
      rw [e] at h
      exact absurd h.1 (by decide)
    have hplus : c ≠ '+' := by
      intro e
      rw [e] at h
      exact absurd h.1 (by decide)
    have hall : (c :: rest).all Char.isDigit = true := by
      simp [List.all_cons, h.1, h.2]
    have hsign : (match c :: rest with
        | '-' :: r => (true, r)
        | '+' :: r => (false, r)
        | _ => (false, c :: rest)) = (false, c :: rest) := by
      split
      · rename_i heq
        injection heq with h₁ _
        exact absurd h₁ hminus
      · rename_i heq
        injection heq with h₁ _
        exact absurd h₁ hplus
      · rfl
    simp only [parseI64, hsign]
    simp [hall]

/-! ## Claims -/

/-- C1: running the full pipeline (tokenize, parse, check, interpret) on
`if String[Hello] is String[Hello] { print(String[True]) }` succeeds and
produces exactly the one output line `True`; the analogous program with
`is not` between the two equal typed-value literals succeeds and
produces no output. -/
theorem claim_C1_pipeline_if_is :
    runPipeline 100 "if String[Hello] is String[Hello] \x7b print(String[True]) \x7d" =
      .ok ["True"] ∧
    runPipeline 100 "if String[Hello] is not String[Hello] \x7b print(String[True]) \x7d" =
      .ok [] :=
  ⟨rfl, rfl⟩

/-- C5: after consuming `i`, if `s` follows, the lexer commits to an
equality token — `is not` when a space and then the literal characters
`n`, `o`, `t` follow, else `is` — without checking word boundaries, so
an identifier beginning with `is` followed by a letter is tokenized as
the equality token plus the remainder (e.g. `island`); if `s` does not
follow `i`, the run is read as a generic identifier starting with `i`
(or the keyword `if`). -/
theorem claim_C5_is_disambiguation :
    (∀ rest, nextToken ('i' :: 's' :: ' ' :: 'n' :: 'o' :: 't' :: rest) =
      (.notEquals, rest)) ∧
    (∀ c rest, c ≠ ' ' →
      nextToken ('i' :: 's' :: c :: rest) = (.equals, c :: rest)) ∧
    nextToken ['i', 's'] = (.equals, []) ∧
    (∀ c rest, c ≠ 's' → nextToken ('i' :: c :: rest) =
      ((if String.mk ('i' :: (readIdentAux (c :: rest)).1) = "if" then .If
        else .identifier (String.mk ('i' :: (readIdentAux (c :: rest)).1)),
        (readIdentAux (c :: rest)).2))) ∧
    nextToken ['i'] = (.identifier "i", []) ∧
    tokenize "island".data = [.equals, .identifier "land", .EOF] := by
  refine ⟨fun rest => rfl, ?_, rfl, ?_, rfl, rfl⟩
  · intro c rest hc
    show nextTokenFuel (rest.length + 3 + 1) _ = _
    have h1 : skipWhitespace ('i' :: 's' :: c :: rest) =
        'i' :: 's' :: c :: rest := rfl
    simp only [nextTokenFuel, h1]
    split
    · rename_i heq
      injection heq with h2 _
      exact absurd h2 hc
    · rfl
  · intro c rest hc
    show nextTokenFuel (rest.length + 2 + 1) _ = _
    have h1 : skipWhitespace ('i' :: c :: rest) = 'i' :: c :: rest := rfl
    simp only [nextTokenFuel, h1]
    split
    · rename_i heq
      injection heq with h2 _
      exact absurd h2 hc
    · rfl

/-- Witness for C5 at concrete inputs: `ish` commits to `is` + `h`, and
`if` stays the keyword `if`. -/
theorem claim_C5_witness :
    nextToken ['i', 's', 'h'] = (.equals, ['h']) ∧
    nextToken ['i', 'f'] = (.If, []) := by
  constructor
  · exact claim_C5_is_disambiguation.2.1 'h' [] (by decide)
  · have h := claim_C5_is_disambiguation.2.2.2.1 'f' [] (by decide)
    simpa using h

/-- C6: `tokenize` is total — for every input it returns a token stream
ending in exactly one end-of-input token and never reports an error;
`read_number` takes the maximal digit run and yields `0` whenever that
run does not parse as a 64-bit integer (overflow or emptiness); a
character matching no token rule is silently skipped and scanning
resumes on the remaining input. -/
theorem claim_C6_tokenize_total :
    (∀ cs, ∃ ts, tokenize cs = ts ++ [Token.EOF] ∧ Token.EOF ∉ ts) ∧
    (∀ cs, readNumber cs =
      ((if natOfDigits (cs.takeWhile Char.isDigit) ≤ i64MaxNat
        then ((natOfDigits (cs.takeWhile Char.isDigit) : Int)) else 0),
        cs.dropWhile Char.isDigit)) ∧
    (∀ fuel c cs, c.isWhitespace = false → c.isAlpha = false →
      c.isDigit = false → c ≠ '/' → c ≠ '[' → c ≠ ']' → c ≠ '\x7b' →
      c ≠ '\x7d' → c ≠ '(' → c ≠ ')' → c ≠ ':' → c ≠ ',' → c ≠ 'i' →
      nextTokenFuel (fuel + 1) (c :: cs) = nextTokenFuel fuel cs) := by
  refine ⟨?_, ?_, ?_⟩
  · exact fun cs => tokenizeFuel_single_EOF _ cs (Nat.lt_succ_self _)
  · intro cs
    have hall : (cs.takeWhile Char.isDigit).all Char.isDigit = true := by
      rw [List.all_eq_true]
      intro a ha
      exact List.mem_takeWhile_imp ha
    simp only [readNumber, readNumberAux_eq, parseI64_digits _ hall]
    rcases htw : cs.takeWhile Char.isDigit with _ | ⟨d, ds⟩
    · simp [natOfDigits, i64MaxNat]
    · simp only [reduceCtorEq, if_false]
      split <;> simp
  · intro fuel c cs hws halpha hdigit h1 h2 h3 h4 h5 h6 h7 h8 h9 h10
    have hskip : skipWhitespace (c :: cs) = c :: cs := by
      simp [skipWhitespace, hws]
    simp only [nextTokenFuel, hskip]
    split <;> simp_all

/-- Witness for C6 at a concrete input: the unrecognised character `#`
is skipped and scanning resumes. -/
theorem claim_C6_witness :
    nextTokenFuel (1 + 1) ['#', 'a'] = nextTokenFuel 1 ['a'] :=
  claim_C6_tokenize_total.2.2 1 '#' ['a'] (by decide) (by decide) (by decide)
    (by decide) (by decide) (by decide) (by decide) (by decide) (by decide)
    (by decide) (by decide) (by decide) (by decide)

/-- C2: any call whose looked-up value is a function value whose stored
name field is `"print"` — whatever its parameter list and body —
performs the built-in print behaviour: the arguments are evaluated left
to right, each value's display form becomes one output line, and the
call returns null; the stored body is never executed and arity is never
checked.  Concretely, a user-declared function literally named `print`
still triggers the built-in behaviour. -/
theorem claim_C2_print_dispatch :
    (∀ fuel env out name arguments parameters body,
      Environment.get env name = some (.function "print" parameters body) →
      evalExpression (fuel + 1) env out (.functionCall name arguments) =
        match evalArgumentsLoop fuel env out arguments with
        | (.ok values, env₁, out₁) =>
          (.ok .null, env₁, out₁ ++ values.map Value.display)
        | (.error e, env₁, out₁) => (.error e, env₁, out₁)) ∧
    runPipeline 100 "func print(a: String) \x7b \x7d print(String[Hi])" =
      .ok ["Hi"] := by
  constructor
  · intro fuel env out name arguments parameters body hget
    simp [evalExpression, hget]
  · rfl

/-- Witness for C2: calling the root `print` binding writes the
argument's display form and returns null. -/
theorem claim_C2_witness :
    evalExpression (5 + 1) Environment.new []
        (.functionCall "print" [.stringLiteral "x"]) =
      (.ok .null, Environment.new, ["x"]) := by
  rw [claim_C2_print_dispatch.1 5 Environment.new [] "print"
    [.stringLiteral "x"] [] [] rfl]
  rfl

/-- C3: a call to a user-defined (non-print) function evaluates the
stored body in a fresh scope extending the caller's environment as it
exists at call time (after the arguments were evaluated), seeded with
the parameter bindings — dynamic scoping — and when the body finishes
the caller's environment is restored exactly.  Concretely, redeclaring
`x` between `show`'s declaration and the call `show()` makes the call
observe the rebound `x`. -/
theorem claim_C3_dynamic_scoping :
    (∀ fuel env out name arguments fname parameters body,
      Environment.get env name = some (.function fname parameters body) →
      fname ≠ "print" →
      arguments.length = parameters.length →
      evalExpression (fuel + 1) env out (.functionCall name arguments) =
        match evalArgumentsLoop fuel env out arguments with
        | (.error e, env₁, out₁) => (.error e, env₁, out₁)
        | (.ok values, env₁, out₁) =>
          match execStatementsLoop fuel
              (bindParameters parameters values (Environment.extend env₁))
              out₁ .null body with
          | (.ok v, _, out₂) => (.ok v, env₁, out₂)
          | (.error e, env₂, out₂) => (.error e, env₂, out₂)) ∧
    runPipeline 100
      "func x() \x7b print(String[first]) \x7d func show() \x7b x() \x7d func x() \x7b print(String[second]) \x7d show()" =
      .ok ["second"] := by
  constructor
  · intro fuel env out name arguments fname parameters body hget hne hlen
    simp [evalExpression, hget, hne, hlen]
  · rfl

/-- Witness for C3: calling a parameterless user function with an empty
body returns null and restores the caller's environment. -/
theorem claim_C3_witness :
    evalExpression (3 + 1) (Environment.define Environment.new "f"
        (.function "f" [] [])) [] (.functionCall "f" []) =
      (.ok .null,
        Environment.define Environment.new "f" (.function "f" [] []), []) := by
  have h := claim_C3_dynamic_scoping.1 3
    (Environment.define Environment.new "f" (.function "f" [] [])) []
    "f" [] "f" [] [] rfl (by decide) rfl
  rw [h]
  rfl

/-- C10: calling a user-defined (non-print) function with the wrong
number of arguments produces the arity error — whose message carries
both the expected and the actual count — before evaluating any argument
expression: the resulting environment and output are exactly the ones
from before the call. -/
theorem claim_C10_arity_error_first :
    ∀ fuel env out name arguments fname parameters body,
      Environment.get env name = some (.function fname parameters body) →
      fname ≠ "print" →
      arguments.length ≠ parameters.length →
      evalExpression (fuel + 1) env out (.functionCall name arguments) =
        (.error ("Expected " ++ toString parameters.length ++
          " arguments but got " ++ toString arguments.length), env, out) := by
  intro fuel env out name arguments fname parameters body hget hne hlen
  simp [evalExpression, hget, hne, hlen]

/-- Witness for C10: `greet` declared with one parameter, called with
none, fails with the counts in the message and leaves environment and
output untouched. -/
theorem claim_C10_witness :
    evalExpression (3 + 1) (Environment.define Environment.new "greet"
        (.function "greet" [⟨"name", "String"⟩] [])) []
        (.functionCall "greet" []) =
      (.error "Expected 1 arguments but got 0",
        Environment.define Environment.new "greet"
          (.function "greet" [⟨"name", "String"⟩] []), []) := by
  have h := claim_C10_arity_error_first 3
    (Environment.define Environment.new "greet"
      (.function "greet" [⟨"name", "String"⟩] [])) []
    "greet" [] "greet" [⟨"name", "String"⟩] [] rfl (by decide) (by decide)
  rw [h]
  rfl

/-- One evaluation step of a typed value whose inner expression is not a
bare identifier: the inner expression is evaluated and its variant is
checked against the type tag. -/
theorem evalExpression_typedValue_generic (fuel : Nat) (env : Environment)
    (out : List String) (type_name : String) (value : Expression)
    (hni : ∀ s, value ≠ .identifier s) :
    evalExpression (fuel + 1) env out (.typedValue type_name value) =
      match evalExpression fuel env out value with
      | (.error e, env₁, out₁) => (.error e, env₁, out₁)
      | (.ok innerValue, env₁, out₁) =>
        match type_name, innerValue with
        | "String", .string _ => (.ok innerValue, env₁, out₁)
        | "Integer", .integer _ => (.ok innerValue, env₁, out₁)
        | _, _ =>
          (.error ("Type mismatch: expected " ++ type_name ++ ", got " ++
            innerValue.debugStr), env₁, out₁) := by
  cases value with
  | identifier s => exact absurd rfl (hni s)
  | stringLiteral s => rfl
  | integerLiteral i => rfl
  | functionCall n args => rfl
  | typedValue t v => rfl
  | binaryOperation l op r => rfl

/-- C4: a typed value whose inner expression is a bare identifier builds
a literal from the identifier's text — `String[x]` is the string `x`,
`Integer[x]` is the parse of `x` or a runtime conversion error.  For any
other inner expression the interpreter evaluates it, returns the value
unchanged exactly when its variant matches the type tag (string for the
`String` tag, integer for the `Integer` tag), fails with a type-mismatch
error otherwise — no coercion — and propagates inner errors. -/
theorem claim_C4_typed_value :
    (∀ fuel env out s,
      evalExpression (fuel + 1) env out (.typedValue "String" (.identifier s)) =
        (.ok (.string s), env, out)) ∧
    (∀ fuel env out s,
      evalExpression (fuel + 1) env out (.typedValue "Integer" (.identifier s)) =
        (match parseI64 s.data with
         | some i => (.ok (.integer i), env, out)
         | none =>
           (.error ("Cannot convert \x27" ++ s ++ "\x27 to Integer"),
             env, out))) ∧
    (∀ fuel env out type_name value v env₁ out₁,
      (∀ s, value ≠ .identifier s) →
      evalExpression fuel env out value = (.ok v, env₁, out₁) →
      (((type_name = "String" ∧ ∃ s, v = .string s) ∨
        (type_name = "Integer" ∧ ∃ i, v = .integer i)) →
        evalExpression (fuel + 1) env out (.typedValue type_name value) =
          (.ok v, env₁, out₁)) ∧
      (¬ ((type_name = "String" ∧ ∃ s, v = .string s) ∨
          (type_name = "Integer" ∧ ∃ i, v = .integer i)) →
        evalExpression (fuel + 1) env out (.typedValue type_name value) =
          (.error ("Type mismatch: expected " ++ type_name ++ ", got " ++
            v.debugStr), env₁, out₁))) ∧
    (∀ fuel env out type_name value e env₁ out₁,
      (∀ s, value ≠ .identifier s) →
      evalExpression fuel env out value = (.error e, env₁, out₁) →
      evalExpression (fuel + 1) env out (.typedValue type_name value) =
        (.error e, env₁, out₁)) := by
  refine ⟨fun fuel env out s => rfl, fun fuel env out s => rfl, ?_, ?_⟩
  · intro fuel env out type_name value v env₁ out₁ hni heval
    rw [evalExpression_typedValue_generic fuel env out type_name value hni,
      heval]
    constructor
    · rintro (⟨rfl, s, rfl⟩ | ⟨rfl, i, rfl⟩) <;> rfl
    · intro hnot
      dsimp only
      rcases v with s | i | b | _ | ⟨n, ps, bd⟩
      · have h₁ : type_name ≠ "String" := fun h => hnot (.inl ⟨h, s, rfl⟩)
        split <;> simp_all
      · have h₂ : type_name ≠ "Integer" := fun h => hnot (.inr ⟨h, i, rfl⟩)
        split <;> simp_all
      · split <;> simp_all
      · split <;> simp_all
      · split <;> simp_all
  · intro fuel env out type_name value e env₁ out₁ hni heval
    rw [evalExpression_typedValue_generic fuel env out type_name value hni,
      heval]

/-- Witness for C4: `String[...]` around a string literal returns the
value unchanged; `Integer[...]` around the same string literal is a
type-mismatch error. -/
theorem claim_C4_witness :
    evalExpression (1 + 1) Environment.new []
        (.typedValue "String" (.stringLiteral "a")) =
      (.ok (.string "a"), Environment.new, []) ∧
    evalExpression (1 + 1) Environment.new []
        (.typedValue "Integer" (.stringLiteral "a")) =
      (.error ("Type mismatch: expected " ++ "Integer" ++ ", got " ++
        (Value.string "a").debugStr), Environment.new, []) := by
  constructor
  · exact (claim_C4_typed_value.2.2.1 1 Environment.new [] "String"
      (.stringLiteral "a") (.string "a") Environment.new []
      (fun s => by simp) rfl).1 (.inl ⟨rfl, "a", rfl⟩)
  · exact (claim_C4_typed_value.2.2.1 1 Environment.new [] "Integer"
      (.stringLiteral "a") (.string "a") Environment.new []
      (fun s => by simp) rfl).2 (by simp)

/-- If the per-argument loop of `check_expression` accepts, every
argument checked (at the loop's fuel for its position) to a type
compatible with its declared parameter type. -/
theorem checkArgumentsAgainst_sound :
    ∀ (arguments : List Expression) (fuel : Nat) (env : TypeEnvironment)
      (paramTypes : List Ty),
      checkArgumentsAgainst fuel env arguments paramTypes = .ok () →
      ∀ i (h₁ : i < arguments.length) (h₂ : i < paramTypes.length),
      ∃ f t, checkExpression f env (arguments.get ⟨i, h₁⟩) = .ok t ∧
        typesCompatible t (paramTypes.get ⟨i, h₂⟩) = true := by
  intro arguments
  induction arguments with
  | nil =>
    intro fuel env ptys _ i h₁
    exact absurd h₁ (by simp)
  | cons a as ih =>
    intro fuel env ptys hok i h₁ h₂
    rcases fuel with _ | f
    · simp [checkArgumentsAgainst] at hok
    · rcases ptys with _ | ⟨p, ps⟩
      · exact absurd h₂ (by simp)
      · simp only [checkArgumentsAgainst] at hok
        rcases hchk : checkExpression f env a with e | t
        · rw [hchk] at hok
          simp at hok
        · rw [hchk] at hok
          dsimp only at hok
          rcases hcompat : typesCompatible t p with _ | _
          · rw [hcompat] at hok
            simp at hok
          · rw [hcompat] at hok
            rw [if_neg (by simp)] at hok
            rcases i with _ | i
            · exact ⟨f, t, hchk, hcompat⟩
            · exact ih f env ps hok i (by simpa using h₁) (by simpa using h₂)

/-- C7: `func f(x: String) \x7b \x7d f(Integer[1])` is rejected by the
type checker with a message naming the expected type `String` and the
actual type `Integer`; in general, the checker accepts a call to a
user-defined (non-`print`, non-`function`) function only with exact
arity and, for every argument, a checked type compatible with the
declared parameter type (equal, or `Unknown` on either side) — any
incompatible argument is rejected. -/
theorem claim_C7_call_type_mismatch :
    runToCheck 100 "func f(x: String) \x7b \x7d f(Integer[1])" =
      .error ("Type mismatch: expected " ++ tyToString .string ++ ", got " ++
        tyToString .integer) ∧
    (∀ fuel env name arguments paramTypes returnType result,
      TypeEnvironment.get env name = some (.function paramTypes returnType) →
      name ≠ "print" → name ≠ "function" →
      checkExpression (fuel + 1) env (.functionCall name arguments) =
        .ok result →
      arguments.length = paramTypes.length ∧
      ∀ i (h₁ : i < arguments.length) (h₂ : i < paramTypes.length),
        ∃ f t, checkExpression f env (arguments.get ⟨i, h₁⟩) = .ok t ∧
          typesCompatible t (paramTypes.get ⟨i, h₂⟩) = true) := by
  constructor
  · rfl
  · intro fuel env name arguments paramTypes returnType result hget hnp hnf hok
    simp only [checkExpression, hget, if_neg hnp, if_neg hnf] at hok
    rcases hlen : decide (arguments.length = paramTypes.length) with _ | _
    · rw [if_pos (by simpa using hlen)] at hok
      simp at hok
    · have hlen₂ : arguments.length = paramTypes.length := by simpa using hlen
      rw [if_neg (by simpa using hlen)] at hok
      refine ⟨hlen₂, ?_⟩
      rcases hargs : checkArgumentsAgainst fuel env arguments paramTypes
        with e | u
      · rw [hargs] at hok
        simp at hok
      · exact checkArgumentsAgainst_sound arguments fuel env paramTypes
          (by rw [hargs]) 

/-- Witness for C7: the checker accepts `f(String[Hello])` against
`f : fn(String) -> Void`, so the argument's checked type is compatible
with `String`. -/
theorem claim_C7_witness :
    (TypeEnvironment.define TypeEnvironment.new "f"
        (.function [.string] .void)).get "f" = some (.function [.string] .void) ∧
    checkExpression (3 + 1)
        (TypeEnvironment.define TypeEnvironment.new "f"
          (.function [.string] .void))
        (.functionCall "f" [.typedValue "String" (.identifier "Hello")]) =
      .ok .void ∧
    [Expression.typedValue "String" (.identifier "Hello")].length =
      [Ty.string].length := by
  refine ⟨rfl, rfl, ?_⟩
  exact (claim_C7_call_type_mismatch.2 3
    (TypeEnvironment.define TypeEnvironment.new "f" (.function [.string] .void))
    "f" [.typedValue "String" (.identifier "Hello")] [.string] .void .void
    rfl (by decide) (by decide) rfl).1

/-- C8: the built-in `function` exists only in the root type
environment, not the root runtime environment: the checker forwards the
first argument's type (or `Unknown` with no arguments), so an undeclared
call `function(...)` passes type checking, but interpretation fails with
an undefined-function error naming `function`. -/
theorem claim_C8_function_stub :
    TypeEnvironment.get TypeEnvironment.new "function" =
      some (.function [.unknown] .unknown) ∧
    Environment.get Environment.new "function" = none ∧
    runToCheck 100 "function(String[Hello])" = .ok () ∧
    runPipeline 100 "function(String[Hello])" =
      .error "Undefined function \x27function\x27" ∧
    (∀ fuel env arguments ty,
      TypeEnvironment.get env "function" = some ty →
      checkExpression (fuel + 1) env (.functionCall "function" arguments) =
        match arguments with
        | [] => .ok .unknown
        | arg :: _ => checkExpression fuel env arg) ∧
    (∀ fuel env out arguments,
      Environment.get env "function" = none →
      evalExpression (fuel + 1) env out (.functionCall "function" arguments) =
        (.error "Undefined function \x27function\x27", env, out)) := by
  refine ⟨rfl, rfl, rfl, rfl, ?_, ?_⟩
  · intro fuel env arguments ty hget
    simp [checkExpression, hget]
  · intro fuel env out arguments hget
    simp only [evalExpression, hget]
    rfl

/-- Witness for C8: in the root environments, `function()` checks to
`Unknown` and fails interpretation. -/
theorem claim_C8_witness :
    checkExpression (3 + 1) TypeEnvironment.new (.functionCall "function" []) =
      .ok .unknown ∧
    evalExpression (3 + 1) Environment.new [] (.functionCall "function" []) =
      (.error "Undefined function \x27function\x27", Environment.new, []) := by
  constructor
  · rw [claim_C8_function_stub.2.2.2.2.1 3 TypeEnvironment.new [] _ rfl]
  · exact claim_C8_function_stub.2.2.2.2.2 3 Environment.new [] [] rfl

/-- C9: the `True` and `False` tokens parse to plain identifier
expressions named `True` / `False`, not boolean literals; used bare they
fail the type checker and the interpreter with an undefined-variable
error naming them unless a binding exists; boolean runtime values arise
from `is` / `is not` (literals evaluate to string/integer values). -/
theorem claim_C9_true_false_identifiers :
    (∀ fuel rest, parsePrimaryExpression (fuel + 1) (Token.typeTrue :: rest) =
      .ok (.identifier "True", rest)) ∧
    (∀ fuel rest, parsePrimaryExpression (fuel + 1) (Token.typeFalse :: rest) =
      .ok (.identifier "False", rest)) ∧
    (∀ fuel env name, TypeEnvironment.get env name = none →
      checkExpression (fuel + 1) env (.identifier name) =
        .error ("Undefined variable \x27" ++ name ++ "\x27")) ∧
    (∀ fuel env out name, Environment.get env name = none →
      evalExpression (fuel + 1) env out (.identifier name) =
        (.error ("Undefined variable \x27" ++ name ++ "\x27"), env, out)) ∧
    runPipeline 100 "True" = .error "Undefined variable \x27True\x27" ∧
    (∀ fuel env out left right leftValue rightValue env₁ out₁ env₂ out₂,
      evalExpression fuel env out left = (.ok leftValue, env₁, out₁) →
      evalExpression fuel env₁ out₁ right = (.ok rightValue, env₂, out₂) →
      evalExpression (fuel + 1) env out (.binaryOperation left "is" right) =
        (.ok (.boolean (valuesEqual leftValue rightValue)), env₂, out₂) ∧
      evalExpression (fuel + 1) env out
          (.binaryOperation left "is not" right) =
        (.ok (.boolean (¬ valuesEqual leftValue rightValue)), env₂, out₂)) ∧
    (∀ fuel env out s,
      evalExpression (fuel + 1) env out (.stringLiteral s) =
        (.ok (.string s), env, out)) ∧
    (∀ fuel env out i,
      evalExpression (fuel + 1) env out (.integerLiteral i) =
        (.ok (.integer i), env, out)) := by
  refine ⟨fun fuel rest => rfl, fun fuel rest => rfl, ?_, ?_, rfl, ?_,
    fun fuel env out s => rfl, fun fuel env out i => rfl⟩
  · intro fuel env name hget
    simp only [checkExpression, hget]
  · intro fuel env out name hget
    simp only [evalExpression, hget]
  · intro fuel env out left right leftValue rightValue env₁ out₁ env₂ out₂
      hleft hright
    constructor
    · simp only [evalExpression, hleft, hright]
      rfl
    · simp only [evalExpression, hleft, hright]
      simp

/-- Witness for C9: in the root environments a bare `True` is an
undefined variable for both the checker and the interpreter, and `is`
on equal strings yields the boolean true. -/
theorem claim_C9_witness :
    checkExpression (3 + 1) TypeEnvironment.new (.identifier "True") =
      .error "Undefined variable \x27True\x27" ∧
    evalExpression (3 + 1) Environment.new [] (.identifier "True") =
      (.error "Undefined variable \x27True\x27", Environment.new, []) ∧
    evalExpression (1 + 1) Environment.new []
        (.binaryOperation (.stringLiteral "a") "is" (.stringLiteral "a")) =
      (.ok (.boolean true), Environment.new, []) := by
  refine ⟨?_, ?_, ?_⟩
  · rw [claim_C9_true_false_identifiers.2.2.1 3 TypeEnvironment.new "True" rfl]
    rfl
  · rw [claim_C9_true_false_identifiers.2.2.2.1 3 Environment.new [] "True" rfl]
    rfl
  · have h := (claim_C9_true_false_identifiers.2.2.2.2.2.1 1 Environment.new []
      (.stringLiteral "a") (.stringLiteral "a") (.string "a") (.string "a")
      Environment.new [] Environment.new [] rfl rfl).1
    rw [h]
    rfl
